import Mathlib

/-!
# Verification of the enterprise-catalog core

A shallow embedding of the enterprise-catalog service core:
the Catalog-Query Resolver (`find_and_modify_catalog_query` and
`CatalogQuery.save`), the Content-Metadata Projector
(`ContentMetadataSerializer.to_representation`), the Discovery-Sync upsert
(`update_contentmetadata_from_discovery`) and the contains-content-items
endpoint, together with theorems settling the specification claims.

Persistence (the Django ORM) is modelled by explicit state passing over a
list of rows; a `save`/`update_or_create`/`get_or_create` either returns the
new database state or fails atomically, mirroring the single-row atomic
writes the persistence layer provides.  Python dictionaries (the mutable
`json_metadata` payloads handled by the projector) are modelled by a heap of
ordered association lists addressed by natural numbers, so that the aliasing
behaviour of `dict.copy()` (a shallow copy: the top-level mapping is fresh,
nested dictionaries are shared references) is represented faithfully.
-/

set_option autoImplicit false

namespace EnterpriseCatalog

/-! ## JSON values

`Json` models the JSON objects stored in `JSONField` columns
(`content_filter` on `CatalogQuery`, `json_metadata` on `ContentMetadata`).
Objects are ordered association lists: the Django fields are loaded with
`object_pairs_hook=collections.OrderedDict`, so key order is preserved and
significant. -/

inductive Json where
  | str (s : String)
  | num (n : Int)
  | bool (b : Bool)
  | null
  | arr (elems : List Json)
  | obj (fields : List (String × Json))

mutual

/-- Structural equality of JSON values (the equality the persistence layer
applies when a `JSONField` is used as a lookup key). -/
def Json.beq : Json → Json → Bool
  | Json.str s, Json.str t => s == t
  | Json.num m, Json.num n => m == n
  | Json.bool a, Json.bool b => a == b
  | Json.null, Json.null => true
  | Json.arr xs, Json.arr ys => Json.beqList xs ys
  | Json.obj fs, Json.obj gs => Json.beqFields fs gs
  | _, _ => false

/-- Structural equality of JSON value lists. -/
def Json.beqList : List Json → List Json → Bool
  | [], [] => true
  | x :: xs, y :: ys => Json.beq x y && Json.beqList xs ys
  | _, _ => false

/-- Structural equality of ordered JSON object fields (order-sensitive). -/
def Json.beqFields : List (String × Json) → List (String × Json) → Bool
  | [], [] => true
  | (k, v) :: fs, (l, w) :: gs => k == l && Json.beq v w && Json.beqFields fs gs
  | _, _ => false

end

/-- Look up a top-level field of a JSON object; `none` for non-objects or
missing keys (Python `dict.get`). -/
def Json.get : Json → String → Option Json
  | Json.obj fields, k => (fields.find? (fun p => p.1 == k)).map (fun p => p.2)
  | _, _ => none

/-- Look up a top-level field expected to be a string. -/
def Json.getStr (j : Json) (k : String) : Option String :=
  match j.get k with
  | some (Json.str s) => some s
  | _ => none

mutual

/-- Canonical serialization of a JSON value, the basis of the content-filter
digest.  Order of object fields is preserved, so two filters with the same
key set in different orders serialize differently. -/
def serializeJson : Json → String
  | Json.str s => "s:" ++ s ++ ";"
  | Json.num n => "n:" ++ toString n ++ ";"
  | Json.bool b => "b:" ++ toString b ++ ";"
  | Json.null => "z;"
  | Json.arr elems => "a[" ++ serializeJsonList elems ++ "];"
  | Json.obj fields => "o[" ++ serializeJsonFields fields ++ "];"

/-- Serialize a list of JSON values in order. -/
def serializeJsonList : List Json → String
  | [] => ""
  | j :: rest => serializeJson j ++ serializeJsonList rest

/-- Serialize JSON object fields in order. -/
def serializeJsonFields : List (String × Json) → String
  | [] => ""
  | (k, v) :: rest => "k:" ++ k ++ "=" ++ serializeJson v ++ "," ++ serializeJsonFields rest

end

/-- Modelled from the spec: `get_content_filter_hash` lives in
`catalog/utils.py`, which is not among the provided sources.  The spec
(section 4.1) requires only a deterministic digest of the ordered filter, with
different key orders digesting differently; it is modelled as the canonical
serialization of the filter, which is deterministic and order-sensitive.
The concrete digest algorithm is immaterial to every claim. -/
def get_content_filter_hash (content_filter : Json) : String :=
  serializeJson content_filter

/-! ## The CatalogQuery store and the Resolver

`CatalogQuery` (catalog/models.py) stores `content_filter` and the derived
`content_filter_hash` (unique).  The `uuid` and `title` fields and the
`get_by_uuid` lookup used by the serializer are part of this repository but
absent from the provided model source; following the spec data model
(section 3: identifier — opaque, stable — and nullable title) they are
modelled as row fields.  Rows carry a numeric primary key `id`; `nextId` in
`CatalogQueryDB` supplies fresh primary keys and fresh auto-generated
identifiers. -/

structure CatalogQueryRow where
  id : Nat
  uuid : String
  content_filter : Json
  content_filter_hash : String
  title : Option String

structure CatalogQueryDB where
  rows : List CatalogQueryRow
  nextId : Nat

/-- Modelled from the spec: `CatalogQuery.get_by_uuid` (a model classmethod not
in the provided source) — find the row with the given identifier. -/
def get_by_uuid (db : CatalogQueryDB) (u : String) : Option CatalogQueryRow :=
  db.rows.find? (fun r => r.uuid == u)

/-- Model of `CatalogQuery.save` (catalog/models.py lines 47-49): recompute
`content_filter_hash` from `content_filter`, then persist.  The persistence
layer enforces uniqueness of `content_filter_hash`: if another row (different
primary key) already owns the recomputed hash the save fails atomically with
an integrity error naming the column, leaving the database unchanged.
Returns the saved row and the new state on success. -/
def CatalogQuery.save (db : CatalogQueryDB) (row : CatalogQueryRow) :
    Except String CatalogQueryRow × CatalogQueryDB :=
  let saved := { row with content_filter_hash := get_content_filter_hash row.content_filter }
  if db.rows.any (fun o => o.id != saved.id && o.content_filter_hash == saved.content_filter_hash) then
    (Except.error "content_filter_hash", db)
  else if db.rows.any (fun o => o.id == saved.id) then
    (Except.ok saved, { db with rows := db.rows.map (fun o => if o.id == saved.id then saved else o) })
  else
    (Except.ok saved, { db with rows := db.rows ++ [saved] })

/-- A fresh auto-generated identifier (Django generates `uuid4` defaults for
rows created without an explicit identifier; freshness is what matters). -/
def freshUuid (db : CatalogQueryDB) : String :=
  "auto-" ++ toString db.nextId

/-- A new, not yet saved row with a fresh primary key. -/
def newRow (db : CatalogQueryDB) (u : String) (content_filter : Json)
    (title : Option String) : CatalogQueryRow :=
  { id := db.nextId, uuid := u, content_filter := content_filter,
    content_filter_hash := "", title := title }

/-- Django `update_or_create` keyed by `content_filter_hash`
(serializers.py lines 63-66): if a row with the hash exists, overwrite it
with the defaults and save; otherwise create a row from the lookup value and
the defaults.  `uuidDefault = none` means the defaults carry no identifier
(the created row gets a fresh auto-generated one). -/
def update_or_create (db : CatalogQueryDB) (hashValue : String) (content_filter : Json)
    (uuidDefault : Option String) (title : Option String) :
    Except String CatalogQueryRow × CatalogQueryDB :=
  match db.rows.find? (fun r => r.content_filter_hash == hashValue) with
  | some row =>
      let row1 := { row with
        content_filter := content_filter,
        uuid := match uuidDefault with | some u => u | none => row.uuid,
        title := title }
      CatalogQuery.save db row1
  | none =>
      let u := match uuidDefault with | some u => u | none => freshUuid db
      let row1 := newRow db u content_filter title
      CatalogQuery.save { db with nextId := db.nextId + 1 } row1

/-- Django `get_or_create` keyed by `content_filter_hash`
(serializers.py lines 69-72): if a row with the hash exists return it
unchanged; otherwise create a row from the lookup value and the defaults. -/
def get_or_create (db : CatalogQueryDB) (hashValue : String) (content_filter : Json)
    (title : Option String) :
    Except String CatalogQueryRow × CatalogQueryDB :=
  match db.rows.find? (fun r => r.content_filter_hash == hashValue) with
  | some row => (Except.ok row, db)
  | none =>
      let row1 := newRow db (freshUuid db) content_filter title
      CatalogQuery.save { db with nextId := db.nextId + 1 } row1

/-- Errors surfaced by the resolver: a structured, field-tagged validation
error (a `rest_framework ValidationError` with detail
`\x7b field : message \x7d`), or an uncaught persistence integrity error that
propagates unchanged. -/
inductive ResolverError where
  | validation (field : String) (message : String)
  | integrity (message : String)
deriving DecidableEq, Repr


/-- Model of `find_and_modify_catalog_query` (api/v1/serializers.py lines 31-74).
Branches exactly as the source:
* identifier given and a row has it: overwrite that row's filter, title and
  recomputed hash, save; an integrity error on save becomes a validation
  error tagged with field `catalog_query`, naming the conflicting column;
* identifier given but no row has it: `update_or_create` keyed by the hash
  with defaults `content_filter`, `uuid`, `title`;
* no identifier: `get_or_create` keyed by the hash with defaults
  `content_filter`, `title`.
The returned database is the input state whenever an error is raised (a
failed save commits nothing). -/
def find_and_modify_catalog_query (db : CatalogQueryDB) (content_filter : Json)
    (catalog_query_uuid : Option String) (query_title : Option String) :
    Except ResolverError CatalogQueryRow × CatalogQueryDB :=
  match catalog_query_uuid with
  | some u =>
      match get_by_uuid db u with
      | some catalog_query_from_uuid =>
          let modified := { catalog_query_from_uuid with
            content_filter := content_filter,
            title := query_title,
            content_filter_hash := get_content_filter_hash content_filter }
          match CatalogQuery.save db modified with
          | (Except.error column, db2) =>
              (Except.error (ResolverError.validation "catalog_query" (column ++ " is not unique")), db2)
          | (Except.ok r, db2) => (Except.ok r, db2)
      | none =>
          match update_or_create db (get_content_filter_hash content_filter)
              content_filter (some u) query_title with
          | (Except.error msg, db2) => (Except.error (ResolverError.integrity msg), db2)
          | (Except.ok r, db2) => (Except.ok r, db2)
  | none =>
      match get_or_create db (get_content_filter_hash content_filter)
          content_filter query_title with
      | (Except.error msg, db2) => (Except.error (ResolverError.integrity msg), db2)
      | (Except.ok r, db2) => (Except.ok r, db2)

/-! ## The ContentMetadata store and the Discovery-Sync upsert

`ContentMetadata` (catalog/models.py lines 121-163): `content_key` (unique),
`content_type`, `parent_content_key` (nullable) and the raw `json_metadata`
payload.  Rows carry a numeric primary key; only the fields touched by
`update_contentmetadata_from_discovery` matter for the sync model. -/

structure ContentMetadataRow where
  id : Nat
  content_key : String
  json_metadata : Json

structure ContentMetadataDB where
  rows : List ContentMetadataRow
  nextId : Nat

/-- One step of the Discovery-Sync upsert (catalog/models.py lines 195-200):
Django `update_or_create` with the **full payload** `json_metadata=entry` as
the lookup key and `defaults={ content_key : entry[key] }`.  If a row
whose `json_metadata` equals the entry exists, only its `content_key` is
updated; otherwise a brand-new row is inserted.  Either write must respect
the `unique=True` constraint on `content_key` (models.py line 133): when it
would leave two rows with the same content key, the database rejects the
write and an IntegrityError â which the job does not catch â propagates,
leaving the store unchanged. -/
def upsertMetadataEntry (db : ContentMetadataDB) (entry : Json) (entryKey : String) :
    Except String ContentMetadataDB :=
  match db.rows.find? (fun r => Json.beq r.json_metadata entry) with
  | some row =>
      if db.rows.any (fun o => o.id != row.id && o.content_key == entryKey) then
        Except.error "content_key"
      else
        Except.ok { db with rows := db.rows.map (fun o =>
          if o.id == row.id then { row with content_key := entryKey } else o) }
  | none =>
      if db.rows.any (fun o => o.content_key == entryKey) then
        Except.error "content_key"
      else
        Except.ok
          { rows := db.rows ++ [{ id := db.nextId, content_key := entryKey, json_metadata := entry }],
            nextId := db.nextId + 1 }

/-- Model of `update_contentmetadata_from_discovery` (catalog/models.py lines 183-200),
parameterized by the entry list the discovery collaborator returned for the
catalog's resolved content filter (the catalog lookup and the
`DiscoveryApiClient` fetch are external collaborators; the body iterates
`metadata.get('results', [])`).  Each entry must carry a `key` field
(`entry['key']` raises otherwise, modelled as an error result), and an
IntegrityError raised by an upsert propagates uncaught. -/
def update_contentmetadata_from_discovery (db : ContentMetadataDB) (results : List Json) :
    Except String ContentMetadataDB :=
  results.foldl
    (fun acc entry =>
      match acc with
      | Except.error e => Except.error e
      | Except.ok d =>
          match entry.getStr "key" with
          | some k => upsertMetadataEntry d entry k
          | none => Except.error "KeyError: key")
    (Except.ok db)

/-! ## A heap of Python dictionaries

The projector operates on the mutable Python dictionary deserialized from
`json_metadata`.  To capture `dict.copy()` (a **shallow** copy: fresh
top-level mapping, shared nested dictionaries) the dictionaries live in a
heap addressed by natural numbers; a nested dictionary appears as a
`PyVal.ref` into that heap.  A dictionary itself is an ordered association
list with at most one entry per key, maintained by `dictSet` (Python 3.7+
dicts preserve insertion order; assigning an existing key updates in place,
a new key appends). -/

inductive PyVal where
  | str (s : String)
  | int (n : Int)
  | bool (b : Bool)
  | none
  | time (t : Int)
  | list (elems : List PyVal)
  | ref (addr : Nat)

/-- An ordered Python dictionary. -/
abbrev PyDict := List (String × PyVal)

/-- The heap: dictionaries addressed by position; allocation appends. -/
abbrev Heap := List PyDict

/-- Lookup `d[k]`, returning `none` when absent (Python `dict.get`). -/
def dictGet : PyDict → String → Option PyVal
  | [], _ => Option.none
  | (k1, v1) :: rest, k => if k1 == k then some v1 else dictGet rest k

/-- Assignment `d[k] = v`: update the existing entry in place, or append a new one. -/
def dictSet : PyDict → String → PyVal → PyDict
  | [], k, v => [(k, v)]
  | (k1, v1) :: rest, k, v =>
      if k1 == k then (k, v) :: rest else (k1, v1) :: dictSet rest k v

/-- The dictionary stored at address `a` (empty for dangling addresses). -/
def heapDict (h : Heap) (a : Nat) : PyDict :=
  (h[a]?).getD []

/-- Field lookup through the heap. -/
def heapGet (h : Heap) (a : Nat) (k : String) : Option PyVal :=
  dictGet (heapDict h a) k

/-- Field lookup through the heap, expecting a string value. -/
def heapGetStr (h : Heap) (a : Nat) (k : String) : Option String :=
  match heapGet h a k with
  | some (PyVal.str s) => some s
  | _ => Option.none

/-- In-place assignment `d[k] = v` on the dictionary at address `a`. -/
def heapSet (h : Heap) (a : Nat) (k : String) (v : PyVal) : Heap :=
  h.set a (dictSet (heapDict h a) k v)

/-- Copying `d.copy()`: allocate a fresh address holding the same entry list.  The
entries — including any `PyVal.ref` to a nested dictionary — are shared, so
the copy is shallow. -/
def heapCopy (h : Heap) (a : Nat) : Heap × Nat :=
  (h ++ [heapDict h a], h.length)

/-! ## The Content-Metadata Projector -/

/-- Modelled from the spec: the `COURSE` content-type marker (the `constants`
module is not among the provided sources; the spec data model fixes
content_type ∈ \x7b course, course_run, program \x7d — only distinctness of
the three markers matters). -/
def COURSE : String := "course"

/-- Modelled from the spec: the `COURSE_RUN` content-type marker. -/
def COURSE_RUN : String := "courserun"

/-- Modelled from the spec: the `PROGRAM` content-type marker. -/
def PROGRAM : String := "program"

/-- The enterprise-context provider view of an enterprise customer
(spec section 6): display name and last-modified timestamp.  Timestamps are
modelled as integers. -/
structure EnterpriseCustomer where
  last_modified_date : Int

/-- The `EnterpriseCatalog` fields the projector reads: its identifier, its
modified timestamp, and the enterprise context (`enterprise_name` and
`enterprise_customer` are provider-backed properties of the model). -/
structure EnterpriseCatalogObj where
  uuid : String
  enterprise_name : String
  modified : Int
  enterprise_customer : EnterpriseCustomer

/-- The in-memory `ContentMetadata` instance handed to the projector; its
`json_metadata` is a reference into the dictionary heap. -/
structure ContentMetadataInstance where
  content_key : String
  content_type : String
  json_metadata : Nat
  modified : Int

/-- Modelled from the spec: `get_most_recent_modified_time`
(api/v1/utils.py, not among the provided sources) — the latest of the three
timestamps (spec section 4.3 step 1). -/
def get_most_recent_modified_time (t1 t2 t3 : Int) : Int :=
  max t1 (max t2 t3)

/-- Modelled from the spec: `get_enterprise_utm_context` combined with
`update_query_parameters` (api/v1/utils.py, not among the provided sources) —
merge UTM query parameters derived from the enterprise name into the
marketing URL (spec section 4.3 step 2).  No claim depends on the merge
details; the enterprise name is recorded in the result. -/
def update_query_parameters (url : String) (enterprise_name : String) : String :=
  url ++ "&utm_source=" ++ enterprise_name

/-- Modelled from the spec: `get_parent_content_key` (catalog/utils.py, not
among the provided sources) — the parent content key declared in the raw
metadata (spec section 4.3 step 3: for a course run, its parent course key). -/
def get_parent_content_key (h : Heap) (a : Nat) : Option String :=
  heapGetStr h a "parent_content_key"

/-- Modelled from the spec: `EnterpriseCatalog.get_content_enrollment_url`
(a model method not among the provided sources) — an enrollment URL templated
from the owning catalog's identifier, the content resource, the content key
and the parent content key (spec section 4.3 step 3); blank (`none`) when
there is no content key, which is why program URLs are always blank
(spec section 4.3 step 5, and the comment at serializers.py line 233). -/
def get_content_enrollment_url (catalog : EnterpriseCatalogObj) (content_resource : String)
    (content_key : Option String) (parent_content_key : Option String) : Option String :=
  match content_key with
  | Option.none => Option.none
  | some k =>
      some ("enroll/" ++ catalog.uuid ++ "/" ++ content_resource ++ "/" ++ k
        ++ "/" ++ parent_content_key.getD "")

/-- Modelled from the spec: `EnterpriseCatalog.get_xapi_activity_id`
(a model method not among the provided sources) — an activity identifier
templated from the catalog, the content resource and the content key
(spec section 4.3 step 3). -/
def get_xapi_activity_id (catalog : EnterpriseCatalogObj) (content_resource : String)
    (content_key : Option String) : String :=
  "xapi/" ++ catalog.uuid ++ "/" ++ content_resource ++ "/" ++ content_key.getD ""

/-- An optional URL as stored into a dictionary field (`None` or a string). -/
def pyOfOptStr : Option String → PyVal
  | Option.none => PyVal.none
  | some s => PyVal.str s

/-- Modelled from the spec: whether one nested course run is currently
enrollable — not yet ended by its declared end field (`is_course_run_active`
in api/v1/utils.py is not among the provided sources; spec section 4.3
step 4).  `now` is the evaluation instant; a run with no declared end has not
ended. -/
def is_course_run_active (now : Int) (h : Heap) (run : PyVal) : Bool :=
  match run with
  | PyVal.ref r =>
      match heapGet h r "end" with
      | some (PyVal.time t) => now < t
      | some PyVal.none => true
      | Option.none => true
      | some _ => true
  | _ => false

/-- Modelled from the spec: `is_any_course_run_active` (api/v1/utils.py, not
among the provided sources) — true iff any nested run is currently
enrollable; boolean OR, empty list gives false (spec section 4.3 step 4). -/
def is_any_course_run_active (now : Int) (h : Heap) (course_runs : List PyVal) : Bool :=
  course_runs.any (fun run => is_course_run_active now h run)

/-- The `if marketing_url:` block (serializers.py lines 206-211): when the
marketing URL is truthy (a non-empty string), merge the UTM parameters into
it and store it back on the copy. -/
def applyMarketingUrl (enterprise_name : String) (h2 : Heap) (a : Nat)
    (marketing_url : Option PyVal) : Heap :=
  match marketing_url with
  | some (PyVal.str s) =>
      if s ≠ "" then
        heapSet h2 a "marketing_url" (PyVal.str (update_query_parameters s enterprise_name))
      else h2
  | _ => h2

/-- Reading `json_metadata.get('course_runs', [])` (serializers.py line 224): the
nested course-run list, defaulting to empty. -/
def runsListOf : Option PyVal → List PyVal
  | some (PyVal.list runs) => runs
  | _ => []

/-- The loop at serializers.py lines 226-231: give every nested course run its
own enrollment URL, parented to the course's key.  Each `course_run` is a
shared reference into the heap, so the assignment mutates the dictionary the
stored record also reaches. -/
def setRunEnrollmentUrls (catalog : EnterpriseCatalogObj) (content_key : Option String)
    (course_runs : List PyVal) (h : Heap) : Heap :=
  course_runs.foldl
    (fun hh run =>
      match run with
      | PyVal.ref r =>
          heapSet hh r "enrollment_url"
            (pyOfOptStr (get_content_enrollment_url catalog COURSE (heapGetStr hh r "key") content_key))
      | _ => hh)
    h

/-- Model of `ContentMetadataSerializer.to_representation`
(api/v1/serializers.py lines 178-240), step for step:
shallow-copy `json_metadata`; read `marketing_url`, `key` and the parent
content key from the copy; write `content_last_modified`; merge UTM
parameters into a truthy marketing URL; for courses and course runs write
`enrollment_url` (built with `content_resource=COURSE` in both cases, as at
line 215) and `xapi_activity_id` (built with the instance's `content_type`);
for courses additionally write the derived `active` flag and give each nested
run its enrollment URL; for programs write the (blank) program enrollment
URL.  `now` is the evaluation instant used by the run-activity check.
Returns the final heap and the address of the returned dictionary. -/
def to_representation (now : Int) (h : Heap) (inst : ContentMetadataInstance)
    (enterprise_catalog : EnterpriseCatalogObj) : Heap × Nat :=
  let content_type := inst.content_type
  let copied := heapCopy h inst.json_metadata
  let h1 := copied.1
  let a := copied.2
  let marketing_url := heapGet h1 a "marketing_url"
  let content_key := heapGetStr h1 a "key"
  let parent_content_key := get_parent_content_key h1 a
  let modified_time := get_most_recent_modified_time inst.modified
    enterprise_catalog.modified enterprise_catalog.enterprise_customer.last_modified_date
  let h2 := heapSet h1 a "content_last_modified" (PyVal.time modified_time)
  let h3 := applyMarketingUrl enterprise_catalog.enterprise_name h2 a marketing_url
  if content_type == COURSE || content_type == COURSE_RUN then
    let h4 := heapSet h3 a "enrollment_url"
      (pyOfOptStr (get_content_enrollment_url enterprise_catalog COURSE content_key parent_content_key))
    let h5 := heapSet h4 a "xapi_activity_id"
      (PyVal.str (get_xapi_activity_id enterprise_catalog content_type content_key))
    if content_type == COURSE then
      let course_runs := runsListOf (heapGet h5 a "course_runs")
      let h6 := heapSet h5 a "active"
        (PyVal.bool (is_any_course_run_active now h5 course_runs))
      (setRunEnrollmentUrls enterprise_catalog content_key course_runs h6, a)
    else
      (h5, a)
  else if content_type == PROGRAM then
    (heapSet h3 a "enrollment_url"
      (pyOfOptStr (get_content_enrollment_url enterprise_catalog PROGRAM content_key parent_content_key)), a)
  else
    (h3, a)

/-! ## The contains-content-items endpoint -/

/-- A catalog's associated content set as seen by the Existence Checker:
each associated metadata record's content key and parent content key. -/
structure CatalogContentSet where
  entries : List (String × Option String)

/-- Modelled from the spec: `EnterpriseCatalog.contains_content_keys` (a model
method not among the provided sources; spec section 4.4) — every requested
identifier must be covered by the catalog's associated content set,
accounting for parent/child relationships; partial coverage is false. -/
def contains_content_keys (catalog : CatalogContentSet) (content_keys : List String) : Bool :=
  content_keys.all (fun k =>
    catalog.entries.any (fun e => e.1 == k || e.2 == some k))

/-- Modelled from the spec: `unquote_course_keys` (api/v1/utils.py, not among
the provided sources) — transport decoding of course-run identifiers
(spec section 4.4: identifiers are decoded before the coverage check;
the plus sign is restored from its percent encoding). -/
def unquote_course_keys (course_run_ids : List String) : List String :=
  course_run_ids.map (fun k => (k.replace "%2B" "+"))

/-- Outcome of a contains-content-items request: rejected before the checker
runs, or answered with the checker's verdict. -/
inductive ContainsResult where
  | rejected
  | answered (contains_content_items : Bool)
deriving DecidableEq, Repr

/-- Modelled from the spec: the `require_at_least_one_query_parameter`
decorator (api/v1/decorators.py, not among the provided sources; spec
section 6) — if every listed query parameter is absent (an absent repeated
query parameter reads back as the empty list), reject with a client error
before the wrapped view body runs; otherwise run the view body. -/
def require_at_least_one_query_parameter (course_run_ids program_uuids : List String)
    (view : List String → List String → ContainsResult) : ContainsResult :=
  if course_run_ids.isEmpty && program_uuids.isEmpty then
    ContainsResult.rejected
  else
    view course_run_ids program_uuids

/-- Model of `EnterpriseCatalogContainsContentItems.contains_content_items`
(api/v1/views/enterprise_catalog_contains_content_items.py lines 40-53): the
decorator guards the view body, which decodes the course-run identifiers and
asks the Existence Checker about the concatenation of the two identifier
lists. -/
def contains_content_items_endpoint (catalog : CatalogContentSet)
    (course_run_ids program_uuids : List String) : ContainsResult :=
  require_at_least_one_query_parameter course_run_ids program_uuids
    (fun crs pgs =>
      ContainsResult.answered (contains_content_keys catalog (unquote_course_keys crs ++ pgs)))

/-- The nested course-run list declared in the metadata dictionary at
address `m` (used to state projector theorems against the original heap). -/
def courseRunsOf (h : Heap) (m : Nat) : List PyVal :=
  runsListOf (heapGet h m "course_runs")

/-! ## Concrete instances used by counterexamples and witnesses -/

/-- C1: a content filter. -/
def filterC1 : Json := Json.obj [("content_type", Json.str "course")]

/-- C1: the pre-existing row owning the hash of `filterC1`, under
identifier `u1` and with no title. -/
def rowC1 : CatalogQueryRow :=
  { id := 0, uuid := "u1", content_filter := filterC1,
    content_filter_hash := get_content_filter_hash filterC1, title := Option.none }

/-- C1: a store holding exactly `rowC1`. -/
def dbC1 : CatalogQueryDB := { rows := [rowC1], nextId := 1 }

/-- C2: a heap holding a course-run dictionary (address 0) and a course
dictionary (address 1) whose `course_runs` list references address 0. -/
def hC2 : Heap :=
  [[("key", PyVal.str "cr1")],
   [("key", PyVal.str "c1"), ("course_runs", PyVal.list [PyVal.ref 0])]]

/-- C2: the stored course record whose `json_metadata` is address 1. -/
def instC2 : ContentMetadataInstance :=
  { content_key := "c1", content_type := "course", json_metadata := 1, modified := 5 }

/-- C2: the owning catalog. -/
def catC2 : EnterpriseCatalogObj :=
  { uuid := "cat1", enterprise_name := "Acme", modified := 6,
    enterprise_customer := { last_modified_date := 7 } }

/-- C3: a stored payload for content key `c1`. -/
def payloadC3 : Json := Json.obj [("key", Json.str "c1"), ("title", Json.str "Old")]

/-- C3: a fresh discovery entry for the same content key `c1`, differing from
the stored payload in a single field value. -/
def entryC3 : Json := Json.obj [("key", Json.str "c1"), ("title", Json.str "New")]

/-- C3: a store holding one row for content key `c1`. -/
def dbC3 : ContentMetadataDB :=
  { rows := [{ id := 0, content_key := "c1", json_metadata := payloadC3 }], nextId := 1 }

/-- C4: the filter whose hash row `uB` already owns. -/
def filterC4 : Json := Json.obj [("content_type", Json.str "course")]

/-- C4: the filter row `uA` currently holds. -/
def filterC4b : Json := Json.obj [("content_type", Json.str "program")]

/-- C4: row `uA`, the row being edited. -/
def rowC4A : CatalogQueryRow :=
  { id := 0, uuid := "uA", content_filter := filterC4b,
    content_filter_hash := get_content_filter_hash filterC4b, title := Option.none }

/-- C4: row `uB`, the row already owning the hash of `filterC4`. -/
def rowC4B : CatalogQueryRow :=
  { id := 1, uuid := "uB", content_filter := filterC4,
    content_filter_hash := get_content_filter_hash filterC4, title := Option.none }

/-- C4: a store holding rows `uA` and `uB`. -/
def dbC4 : CatalogQueryDB := { rows := [rowC4A, rowC4B], nextId := 2 }

/-- C5: a content filter. -/
def filterC5 : Json := Json.obj [("languages", Json.arr [Json.str "en"])]

/-- C5: an empty store. -/
def dbC5 : CatalogQueryDB := { rows := [], nextId := 0 }

/-- C6: a heap holding one course-run dictionary at address 0. -/
def hC6 : Heap := [[("key", PyVal.str "cr-9"), ("parent_content_key", PyVal.str "c-9")]]

/-- C6: a stored course-run record. -/
def instC6 : ContentMetadataInstance :=
  { content_key := "cr-9", content_type := "courserun", json_metadata := 0, modified := 1 }

/-- C6: the owning catalog. -/
def catC6 : EnterpriseCatalogObj :=
  { uuid := "catZ", enterprise_name := "Zen", modified := 2,
    enterprise_customer := { last_modified_date := 3 } }

/-- C7: a heap with a run ended in the past (address 0), a run with no end
date (address 1) and the course referencing both (address 2). -/
def hC7 : Heap :=
  [[("key", PyVal.str "r1"), ("end", PyVal.time 10)],
   [("key", PyVal.str "r2")],
   [("key", PyVal.str "c7"), ("course_runs", PyVal.list [PyVal.ref 0, PyVal.ref 1])]]

/-- C7: the stored course record whose `json_metadata` is address 2. -/
def instC7 : ContentMetadataInstance :=
  { content_key := "c7", content_type := "course", json_metadata := 2, modified := 0 }

/-- C7: the owning catalog. -/
def catC7 : EnterpriseCatalogObj :=
  { uuid := "catS", enterprise_name := "Sigma", modified := 0,
    enterprise_customer := { last_modified_date := 0 } }

/-- C8: a heap with one program dictionary. -/
def hC8 : Heap := [[("title", PyVal.str "prog")]]

/-- C8: a stored program record. -/
def instC8 : ContentMetadataInstance :=
  { content_key := "p1", content_type := "program", json_metadata := 0, modified := 3 }

/-- C8: the owning catalog; its modified time 9 is the latest of the three. -/
def catC8 : EnterpriseCatalogObj :=
  { uuid := "catP", enterprise_name := "Pi", modified := 9,
    enterprise_customer := { last_modified_date := 4 } }

/-- C10: an empty store. -/
def dbC10 : CatalogQueryDB := { rows := [], nextId := 0 }

/-- C10: a content filter. -/
def filterC10 : Json := Json.obj [("level", Json.str "intro")]

/-- C10: an unsaved row whose caller-assigned hash is stale. -/
def rowC10 : CatalogQueryRow :=
  { id := 0, uuid := "u10", content_filter := filterC10,
    content_filter_hash := "stale", title := Option.none }

/-! ## Dictionary and heap lemmas -/

theorem dictGet_dictSet_self (d : PyDict) (k : String) (v : PyVal) :
    dictGet (dictSet d k v) k = some v := by
  induction d with
  | nil => simp [dictSet, dictGet]
  | cons p rest ih =>
      obtain ⟨k1, v1⟩ := p
      by_cases hk : k1 = k
      · simp [dictSet, dictGet, hk]
      · simp [dictSet, dictGet, hk, ih]

theorem dictGet_dictSet_ne (d : PyDict) (k k' : String) (v : PyVal) (hk : k' ≠ k) :
    dictGet (dictSet d k v) k' = dictGet d k' := by
  have hne : ¬(k = k') := fun h => hk h.symm
  induction d with
  | nil => simp [dictSet, dictGet, hne]
  | cons p rest ih =>
      obtain ⟨k1, v1⟩ := p
      by_cases h1 : k1 = k
      · subst h1
        simp [dictSet, dictGet, hne]
      · by_cases h2 : k1 = k'
        · subst h2
          simp [dictSet, dictGet, h1]
        · simp [dictSet, dictGet, h1, h2, ih]

theorem length_heapSet (h : Heap) (a : Nat) (k : String) (v : PyVal) :
    (heapSet h a k v).length = h.length :=
  List.length_set h a (dictSet (heapDict h a) k v)

theorem heapDict_heapSet_ne (h : Heap) (a b : Nat) (k : String) (v : PyVal) (hne : b ≠ a) :
    heapDict (heapSet h a k v) b = heapDict h b := by
  simp [heapDict, heapSet, List.getElem?_set_ne (Ne.symm hne)]

theorem heapDict_heapSet_self (h : Heap) (a : Nat) (k : String) (v : PyVal)
    (ha : a < h.length) :
    heapDict (heapSet h a k v) a = dictSet (heapDict h a) k v := by
  simp [heapDict, heapSet, List.getElem?_set_eq_of_lt _ ha]

theorem heapGet_heapSet_self (h : Heap) (a : Nat) (k : String) (v : PyVal)
    (ha : a < h.length) :
    heapGet (heapSet h a k v) a k = some v := by
  rw [heapGet, heapDict_heapSet_self h a k v ha, dictGet_dictSet_self]

theorem heapGet_heapSet_ne_key (h : Heap) (a : Nat) (k k' : String) (v : PyVal)
    (hk : k' ≠ k) :
    heapGet (heapSet h a k v) a k' = heapGet h a k' := by
  by_cases ha : a < h.length
  · rw [heapGet, heapDict_heapSet_self h a k v ha, dictGet_dictSet_ne _ _ _ _ hk, heapGet]
  · rw [heapGet, heapGet, heapSet, List.set_eq_of_length_le (by omega)]

theorem heapGet_heapSet_ne_addr (h : Heap) (a b : Nat) (k k' : String) (v : PyVal)
    (hne : b ≠ a) :
    heapGet (heapSet h a k v) b k' = heapGet h b k' := by
  rw [heapGet, heapDict_heapSet_ne h a b k v hne, heapGet]

theorem heapDict_append_lt (h : Heap) (d : PyDict) (b : Nat) (hb : b < h.length) :
    heapDict (h ++ [d]) b = heapDict h b := by
  simp [heapDict, List.getElem?_append_left hb]

theorem heapDict_append_self (h : Heap) (d : PyDict) :
    heapDict (h ++ [d]) h.length = d := by
  simp [heapDict, List.getElem?_concat_length]

theorem length_applyMarketingUrl (name : String) (h2 : Heap) (a : Nat)
    (mu : Option PyVal) :
    (applyMarketingUrl name h2 a mu).length = h2.length := by
  unfold applyMarketingUrl
  split
  · split
    · exact length_heapSet h2 a "marketing_url" _
    · rfl
  · rfl

theorem heapGet_applyMarketingUrl_ne_key (name : String) (h2 : Heap) (a : Nat)
    (mu : Option PyVal) (k : String) (hk : k ≠ "marketing_url") :
    heapGet (applyMarketingUrl name h2 a mu) a k = heapGet h2 a k := by
  unfold applyMarketingUrl
  split
  · split
    · exact heapGet_heapSet_ne_key h2 a "marketing_url" k _ hk
    · rfl
  · rfl

theorem heapDict_applyMarketingUrl_ne_addr (name : String) (h2 : Heap) (a b : Nat)
    (mu : Option PyVal) (hne : b ≠ a) :
    heapDict (applyMarketingUrl name h2 a mu) b = heapDict h2 b := by
  unfold applyMarketingUrl
  split
  · split
    · exact heapDict_heapSet_ne h2 a b "marketing_url" _ hne
    · rfl
  · rfl

theorem length_setRunEnrollmentUrls (catalog : EnterpriseCatalogObj)
    (content_key : Option String) :
    ∀ (runs : List PyVal) (h : Heap),
      (setRunEnrollmentUrls catalog content_key runs h).length = h.length := by
  intro runs
  unfold setRunEnrollmentUrls
  induction runs with
  | nil => intro h; rfl
  | cons run rest ih =>
      intro h
      rw [List.foldl_cons, ih]
      cases run with
      | ref r => exact length_heapSet _ _ _ _
      | str s => rfl
      | int n => rfl
      | bool b1 => rfl
      | none => rfl
      | time t => rfl
      | list xs => rfl

theorem heapDict_setRunEnrollmentUrls_notRef (catalog : EnterpriseCatalogObj)
    (content_key : Option String) (b : Nat) :
    ∀ (runs : List PyVal) (h : Heap),
      (∀ r : Nat, PyVal.ref r ∈ runs → b ≠ r) →
      heapDict (setRunEnrollmentUrls catalog content_key runs h) b = heapDict h b := by
  intro runs
  unfold setRunEnrollmentUrls
  induction runs with
  | nil => intro h _; rfl
  | cons run rest ih =>
      intro h hb
      rw [List.foldl_cons, ih _ (fun r hr => hb r (List.mem_cons_of_mem _ hr))]
      cases run with
      | ref r => exact heapDict_heapSet_ne _ _ _ _ _ (hb r (List.mem_cons_self _ _))
      | str s => rfl
      | int n => rfl
      | bool b1 => rfl
      | none => rfl
      | time t => rfl
      | list xs => rfl

theorem heapGet_setRunEnrollmentUrls_notRef (catalog : EnterpriseCatalogObj)
    (content_key : Option String) (b : Nat) (k : String) (runs : List PyVal) (h : Heap)
    (hb : ∀ r : Nat, PyVal.ref r ∈ runs → b ≠ r) :
    heapGet (setRunEnrollmentUrls catalog content_key runs h) b k = heapGet h b k := by
  unfold heapGet
  rw [heapDict_setRunEnrollmentUrls_notRef catalog content_key b runs h hb]

theorem is_any_course_run_active_congr (now : Int) (h h' : Heap) :
    ∀ (runs : List PyVal),
      (∀ r : Nat, PyVal.ref r ∈ runs → heapDict h' r = heapDict h r) →
      is_any_course_run_active now h' runs = is_any_course_run_active now h runs := by
  intro runs
  induction runs with
  | nil => intro _; rfl
  | cons run rest ih =>
      intro hagree
      have hrest := fun r hr => hagree r (List.mem_cons_of_mem _ hr)
      simp only [is_any_course_run_active, List.any_cons] at ih ⊢
      rw [ih hrest]
      cases run with
      | ref r =>
          have hr := hagree r (List.mem_cons_self _ _)
          simp only [is_course_run_active, heapGet, hr]
      | str s => rfl
      | int n => rfl
      | bool b => rfl
      | none => rfl
      | time t => rfl
      | list xs => rfl

/-! ## Claim theorems -/

/-- C10: every CatalogQuery row persisted through `save` has
`content_filter_hash` equal to the hash of its `content_filter` at the moment
of saving, regardless of any value a caller assigned beforehand: `save` is
insensitive to the prior hash field, the saved row carries the recomputed
hash, and every row of the resulting store is an untouched pre-existing row
or the saved row â so the derived-hash invariant is preserved by every write
path. -/
theorem claim_C10_save_recomputes_hash (db db2 : CatalogQueryDB)
    (row r2 : CatalogQueryRow)
    (hok : CatalogQuery.save db row = (Except.ok r2, db2)) :
    r2.content_filter_hash = get_content_filter_hash r2.content_filter ∧
    (∀ h0 : String,
      CatalogQuery.save db { row with content_filter_hash := h0 } =
        CatalogQuery.save db row) ∧
    (∀ r ∈ db2.rows, r ∈ db.rows ∨ r = r2) := by
  refine ⟨?_, fun h0 => rfl, ?_⟩ <;>
    · simp only [CatalogQuery.save] at hok
      split at hok
      · exact absurd (congrArg Prod.fst hok) (by simp)
      · split at hok
        · rw [Prod.mk.injEq] at hok
          obtain ⟨hr, hdb⟩ := hok
          injection hr with hr
          first
          | · subst hr; rfl
          | · intro r hrmem
              rw [← hdb] at hrmem
              simp only [List.mem_map] at hrmem
              obtain ⟨o, homem, hro⟩ := hrmem
              by_cases hid : (o.id == row.id) = true
              · right; rw [← hr, ← hro]; simp [hid]
              · left; rw [← hro]; simpa [hid] using homem
        · rw [Prod.mk.injEq] at hok
          obtain ⟨hr, hdb⟩ := hok
          injection hr with hr
          first
          | · subst hr; rfl
          | · intro r hrmem
              rw [← hdb] at hrmem
              simp only [List.mem_append, List.mem_singleton] at hrmem
              rcases hrmem with hrmem | hrmem
              · exact Or.inl hrmem
              · exact Or.inr (hrmem.trans hr)

/-- C10 witness: saving a row whose caller-assigned hash is stale persists it
with the hash recomputed from its content filter. -/
theorem claim_C10_witness :
    (CatalogQuery.save dbC10 rowC10 =
      (Except.ok { id := 0, uuid := "u10", content_filter := filterC10,
                   content_filter_hash := get_content_filter_hash filterC10,
                   title := Option.none },
       { rows := [{ id := 0, uuid := "u10", content_filter := filterC10,
                    content_filter_hash := get_content_filter_hash filterC10,
                    title := Option.none }], nextId := 0 })) ∧
    ({ id := 0, uuid := "u10", content_filter := filterC10,
       content_filter_hash := get_content_filter_hash filterC10,
       title := Option.none } : CatalogQueryRow).content_filter_hash =
      get_content_filter_hash filterC10 :=
  ⟨rfl, (claim_C10_save_recomputes_hash dbC10 _ rowC10 _ rfl).1⟩

/-- C5: resolving a filter twice with no explicit identifier returns the same
CatalogQuery both times, and the second resolution leaves the store exactly as
the first left it â no duplicate row is created.  `hfresh` is the
persistence-layer freshness of primary keys. -/
theorem claim_C5_resolve_no_identifier_idempotent (db db1 : CatalogQueryDB)
    (F : Json) (t : Option String) (r1 : CatalogQueryRow)
    (hfresh : ∀ r ∈ db.rows, r.id < db.nextId)
    (h1 : find_and_modify_catalog_query db F Option.none t = (Except.ok r1, db1)) :
    find_and_modify_catalog_query db1 F Option.none t = (Except.ok r1, db1) := by
  simp only [find_and_modify_catalog_query, get_or_create] at h1 ⊢
  rcases hfind : db.rows.find?
      (fun r => r.content_filter_hash == get_content_filter_hash F) with _ | row
  · rw [hfind] at h1
    simp only [CatalogQuery.save, newRow, freshUuid] at h1
    have hnone := List.find?_eq_none.mp hfind
    have hcol : (db.rows.any fun o =>
        o.id != db.nextId && o.content_filter_hash == get_content_filter_hash F) = false := by
      rw [List.any_eq_false]
      intro o ho
      have h2 := hnone o ho
      simp only [beq_iff_eq] at h2
      simp [h2]
    have hid : (db.rows.any fun o => o.id == db.nextId) = false := by
      rw [List.any_eq_false]
      intro o ho
      have h2 := hfresh o ho
      simp
      omega
    rw [if_neg (by simp [hcol]), if_neg (by simp [hid])] at h1
    rw [Prod.mk.injEq] at h1
    obtain ⟨hr, hdb⟩ := h1
    injection hr with hr
    subst hr
    subst hdb
    rw [List.find?_append, hfind]
    simp [CatalogQuery.save]
  · rw [hfind] at h1
    rw [Prod.mk.injEq] at h1
    obtain ⟨hr, hdb⟩ := h1
    injection hr with hr
    subst hr
    subst hdb
    rw [hfind]

/-- C5 witness: resolving a concrete filter twice on an initially empty store
returns the same created row both times and leaves the store unchanged after
the second call. -/
theorem claim_C5_witness :
    (∀ r ∈ dbC5.rows, r.id < dbC5.nextId) ∧
    (find_and_modify_catalog_query dbC5 filterC5 Option.none (some "t5") =
      (Except.ok { id := 0, uuid := "auto-0", content_filter := filterC5,
                   content_filter_hash := get_content_filter_hash filterC5,
                   title := some "t5" },
       { rows := [{ id := 0, uuid := "auto-0", content_filter := filterC5,
                    content_filter_hash := get_content_filter_hash filterC5,
                    title := some "t5" }], nextId := 1 })) ∧
    (find_and_modify_catalog_query
        { rows := [{ id := 0, uuid := "auto-0", content_filter := filterC5,
                     content_filter_hash := get_content_filter_hash filterC5,
                     title := some "t5" }], nextId := 1 }
        filterC5 Option.none (some "t5") =
      (Except.ok { id := 0, uuid := "auto-0", content_filter := filterC5,
                   content_filter_hash := get_content_filter_hash filterC5,
                   title := some "t5" },
       { rows := [{ id := 0, uuid := "auto-0", content_filter := filterC5,
                    content_filter_hash := get_content_filter_hash filterC5,
                    title := some "t5" }], nextId := 1 })) :=
  ⟨fun r hr => absurd hr (List.not_mem_nil r), rfl,
    claim_C5_resolve_no_identifier_idempotent dbC5 _ filterC5 (some "t5") _
      (fun r hr => absurd hr (List.not_mem_nil r)) rfl⟩

/-- C4: resolving an existing identifier `A` to a filter whose hash another
row `B` already owns fails with a validation error tagged with the
`catalog_query` field and naming the conflicting `content_filter_hash`
column, and the store is returned unchanged â row `A` keeps its persisted
state; the edit exists only in memory. -/
theorem claim_C4_conflicting_update_fails (db : CatalogQueryDB) (F : Json)
    (A : String) (t : Option String) (rowA rowB : CatalogQueryRow)
    (hA : get_by_uuid db A = some rowA)
    (hB : rowB ∈ db.rows)
    (hid : rowB.id ≠ rowA.id)
    (hhash : rowB.content_filter_hash = get_content_filter_hash F) :
    find_and_modify_catalog_query db F (some A) t =
      (Except.error (ResolverError.validation "catalog_query"
        "content_filter_hash is not unique"), db) := by
  have hany : (db.rows.any fun o =>
      o.id != rowA.id && o.content_filter_hash == get_content_filter_hash F) = true := by
    rw [List.any_eq_true]
    exact ⟨rowB, hB, by simp [hid, hhash]⟩
  simp only [find_and_modify_catalog_query, hA, CatalogQuery.save]
  rw [if_pos (by simpa using hany)]
  rfl

/-- C4 witness: on a concrete store, editing row `uA` toward the filter whose
hash row `uB` owns fails with the field-tagged error and returns the store
unchanged. -/
theorem claim_C4_witness :
    get_by_uuid dbC4 "uA" = some rowC4A ∧
    rowC4B ∈ dbC4.rows ∧
    rowC4B.id ≠ rowC4A.id ∧
    rowC4B.content_filter_hash = get_content_filter_hash filterC4 ∧
    find_and_modify_catalog_query dbC4 filterC4 (some "uA") Option.none =
      (Except.error (ResolverError.validation "catalog_query"
        "content_filter_hash is not unique"), dbC4) := by
  have hB : rowC4B ∈ dbC4.rows :=
    List.mem_cons_of_mem _ (List.mem_cons_self _ _)
  exact ⟨rfl, hB, by decide, rfl,
    claim_C4_conflicting_update_fails dbC4 filterC4 "uA" Option.none rowC4A rowC4B
      rfl hB (by decide) rfl⟩

/-- C1 counterexample: with store `dbC1` (one row, identifier `u1`, no
title, owning the hash of `filterC1`) and the unused identifier `u2`, the
resolver does **not** return the matched row as-is: the returned (and stored)
row comes back with identifier `u2` and title `T`, not its original `u1` and
no-title â the branch uses `update_or_create`, so the defaults overwrite the
matched row. -/
theorem claim_C1_counterexample :
    get_by_uuid dbC1 "u2" = Option.none ∧
    rowC1.content_filter_hash = get_content_filter_hash filterC1 ∧
    (rowC1.uuid, rowC1.title) = ("u1", Option.none) ∧
    ((find_and_modify_catalog_query dbC1 filterC1 (some "u2") (some "T")).1.toOption.map
        (fun r => (r.uuid, r.title)) = some ("u2", some "T")) ∧
    ((find_and_modify_catalog_query dbC1 filterC1 (some "u2") (some "T")).2.rows.map
        (fun r => (r.uuid, r.title)) = [("u2", some "T")]) ∧
    (("u2", some "T") ≠ (rowC1.uuid, rowC1.title)) :=
  ⟨rfl, rfl, rfl, rfl, rfl, by decide⟩

/-- C1 (amended): when an identifier `U` is given, no row has identifier `U`,
and a row `R` already owns the filter's hash, the resolver returns `R`
**updated in place**: its content_filter, identifier and title are overwritten
with the given values (`update_or_create` applies the defaults on match as
well as on insert), and no new row is created. -/
theorem claim_C1_amended_update_on_match (db : CatalogQueryDB) (F : Json)
    (U : String) (t : Option String) (R : CatalogQueryRow)
    (hU : get_by_uuid db U = Option.none)
    (hfind : db.rows.find?
      (fun r => r.content_filter_hash == get_content_filter_hash F) = some R)
    (huniq : ∀ o ∈ db.rows,
      o.content_filter_hash = get_content_filter_hash F → o.id = R.id) :
    find_and_modify_catalog_query db F (some U) t =
      (Except.ok { id := R.id, uuid := U, content_filter := F,
                   content_filter_hash := get_content_filter_hash F, title := t },
       { rows := db.rows.map (fun o => if o.id == R.id then
           { id := R.id, uuid := U, content_filter := F,
             content_filter_hash := get_content_filter_hash F, title := t } else o),
         nextId := db.nextId }) ∧
    (find_and_modify_catalog_query db F (some U) t).2.rows.length = db.rows.length := by
  have hcol : (db.rows.any fun o =>
      o.id != R.id && o.content_filter_hash == get_content_filter_hash F) = false := by
    rw [List.any_eq_false]
    intro o ho
    by_cases hh : o.content_filter_hash = get_content_filter_hash F
    · have := huniq o ho hh
      simp [this]
    · simp [hh]
  have hid : (db.rows.any fun o => o.id == R.id) = true := by
    rw [List.any_eq_true]
    exact ⟨R, List.mem_of_find?_eq_some hfind, by simp⟩
  have hmain : find_and_modify_catalog_query db F (some U) t =
      (Except.ok { id := R.id, uuid := U, content_filter := F,
                   content_filter_hash := get_content_filter_hash F, title := t },
       { rows := db.rows.map (fun o => if o.id == R.id then
           { id := R.id, uuid := U, content_filter := F,
             content_filter_hash := get_content_filter_hash F, title := t } else o),
         nextId := db.nextId }) := by
    simp only [find_and_modify_catalog_query, hU, update_or_create, hfind,
      CatalogQuery.save]
    rw [if_neg (by simpa using hcol), if_pos (by simpa using hid)]
  exact ⟨hmain, by rw [hmain]; exact List.length_map _ _⟩

/-- C1 witness: the amended behaviour on the concrete store `dbC1`. -/
theorem claim_C1_witness :
    get_by_uuid dbC1 "u2" = Option.none ∧
    dbC1.rows.find?
      (fun r => r.content_filter_hash == get_content_filter_hash filterC1) = some rowC1 ∧
    (∀ o ∈ dbC1.rows,
      o.content_filter_hash = get_content_filter_hash filterC1 → o.id = rowC1.id) ∧
    find_and_modify_catalog_query dbC1 filterC1 (some "u2") (some "T") =
      (Except.ok { id := rowC1.id, uuid := "u2", content_filter := filterC1,
                   content_filter_hash := get_content_filter_hash filterC1,
                   title := some "T" },
       { rows := dbC1.rows.map (fun o => if o.id == rowC1.id then
           { id := rowC1.id, uuid := "u2", content_filter := filterC1,
             content_filter_hash := get_content_filter_hash filterC1,
             title := some "T" } else o),
         nextId := dbC1.nextId }) := by
  have huniq : ∀ o ∈ dbC1.rows,
      o.content_filter_hash = get_content_filter_hash filterC1 → o.id = rowC1.id := by
    intro o ho _
    rcases List.mem_singleton.mp ho with h
    rw [h]
  exact ⟨rfl, rfl, huniq,
    (claim_C1_amended_update_on_match dbC1 filterC1 "u2" (some "T") rowC1
      rfl rfl huniq).1⟩

/-- C3 counterexample: the store holds a row for content key `c1`; a fresh
discovery entry for the same content key whose payload differs in a single
field value does **not** produce a new row â the payload-keyed lookup finds
no match, the attempted insert of a second `c1` row violates the
`content_key` uniqueness constraint, and the sync fails with an integrity
error, creating nothing. -/
theorem claim_C3_counterexample :
    entryC3.getStr "key" = some "c1" ∧
    (dbC3.rows.map (fun r => r.content_key)) = ["c1"] ∧
    (∀ r ∈ dbC3.rows, Json.beq r.json_metadata entryC3 = false) ∧
    update_contentmetadata_from_discovery dbC3 [entryC3] = Except.error "content_key" :=
  ⟨rfl, rfl, by decide, rfl⟩

/-- C3 (amended): the Discovery-Sync upsert matches existing rows by the full
raw payload (`json_metadata` equality) rather than by the entry's content
key.  When no stored payload equals the entry, the upsert therefore attempts
to insert a brand-new row: if a row for the entry's content key already
exists, the `content_key` uniqueness constraint rejects the insert and the
job fails with an integrity error instead of updating that row in place;
only when the content key is genuinely new is the row appended, with every
pre-existing row carried over unchanged. -/
theorem claim_C3_sync_matches_on_payload (db : ContentMetadataDB) (entry : Json)
    (k : String)
    (hkey : entry.getStr "key" = some k)
    (hnomatch : ∀ r ∈ db.rows, Json.beq r.json_metadata entry = false) :
    ((∃ r ∈ db.rows, r.content_key = k) →
      update_contentmetadata_from_discovery db [entry] = Except.error "content_key") ∧
    ((∀ r ∈ db.rows, r.content_key ≠ k) →
      update_contentmetadata_from_discovery db [entry] = Except.ok
        { rows := db.rows ++ [{ id := db.nextId, content_key := k, json_metadata := entry }],
          nextId := db.nextId + 1 }) := by
  have hfind : db.rows.find? (fun r => Json.beq r.json_metadata entry) = Option.none :=
    List.find?_eq_none.mpr (fun x hx => by rw [hnomatch x hx]; simp)
  constructor
  · rintro ⟨r, hr, hrk⟩
    have hany : (db.rows.any fun o => o.content_key == k) = true := by
      rw [List.any_eq_true]
      exact ⟨r, hr, by simp [hrk]⟩
    simp only [update_contentmetadata_from_discovery, List.foldl_cons, List.foldl_nil,
      hkey, upsertMetadataEntry, hfind]
    rw [if_pos (by simpa using hany)]
  · intro hnone
    have hany : (db.rows.any fun o => o.content_key == k) = false := by
      rw [List.any_eq_false]
      intro o ho
      simpa using hnone o ho
    simp only [update_contentmetadata_from_discovery, List.foldl_cons, List.foldl_nil,
      hkey, upsertMetadataEntry, hfind]
    rw [if_neg (by simp [hany])]

/-- C3 witness: the amended behaviour at the concrete store â the entry's
payload matches no stored payload, a row for its content key `c1` exists,
and the sync fails with the integrity error. -/
theorem claim_C3_witness :
    entryC3.getStr "key" = some "c1" ∧
    (∀ r ∈ dbC3.rows, Json.beq r.json_metadata entryC3 = false) ∧
    (∃ r ∈ dbC3.rows, r.content_key = "c1") ∧
    update_contentmetadata_from_discovery dbC3 [entryC3] = Except.error "content_key" := by
  have hex : ∃ r ∈ dbC3.rows, r.content_key = "c1" :=
    ⟨{ id := 0, content_key := "c1", json_metadata := payloadC3 },
      List.mem_cons_self _ _, rfl⟩
  exact ⟨rfl, by decide, hex,
    (claim_C3_sync_matches_on_payload dbC3 entryC3 "c1" rfl (by decide)).1 hex⟩

/-- C9: the contains-content-items endpoint rejects a request in which both
identifier-set parameters are absent (read back as empty lists) before the
Existence Checker runs â the rejected outcome is the same for every catalog,
so the checker is never consulted â and runs the checker exactly when at
least one identifier set is supplied. -/
theorem claim_C9_endpoint_requires_identifier_set (catalog : CatalogContentSet)
    (course_run_ids program_uuids : List String) :
    contains_content_items_endpoint catalog course_run_ids program_uuids =
      (if course_run_ids.isEmpty && program_uuids.isEmpty then ContainsResult.rejected
       else ContainsResult.answered (contains_content_keys catalog
         (unquote_course_keys course_run_ids ++ program_uuids))) ∧
    (∀ other : CatalogContentSet,
      contains_content_items_endpoint other [] [] = ContainsResult.rejected) :=
  ⟨rfl, fun _ => rfl⟩

/-- C8: for every projection, the output mapping's `content_last_modified`
field equals the latest (maximum) of exactly three timestamps: the stored
record's modified time, the owning catalog's modified time and the enterprise
context's last-modified date.  `hwf` says the nested course-run references of
the record point into the heap. -/
theorem claim_C8_content_last_modified (now : Int) (h : Heap)
    (inst : ContentMetadataInstance) (cat : EnterpriseCatalogObj)
    (hwf : ∀ r : Nat, PyVal.ref r ∈ courseRunsOf h inst.json_metadata → r < h.length) :
    heapGet (to_representation now h inst cat).1 (to_representation now h inst cat).2
        "content_last_modified" =
      some (PyVal.time (max inst.modified
        (max cat.modified cat.enterprise_customer.last_modified_date))) := by
  have hcopyread : ∀ K : String,
      heapGet (h ++ [heapDict h inst.json_metadata]) h.length K =
        heapGet h inst.json_metadata K := by
    intro K
    unfold heapGet
    rw [heapDict_append_self]
  have hlt1 : h.length < (h ++ [heapDict h inst.json_metadata]).length := by simp
  by_cases hC : inst.content_type = COURSE
  · have hcond : (inst.content_type == COURSE || inst.content_type == COURSE_RUN) = true := by
      simp [hC]
    have hcondC : (inst.content_type == COURSE) = true := by simp [hC]
    simp only [to_representation, heapCopy, get_most_recent_modified_time]
    rw [if_pos hcond, if_pos hcondC]
    dsimp only
    rw [heapGet_heapSet_ne_key _ _ "xapi_activity_id" "course_runs" _ (by decide),
        heapGet_heapSet_ne_key _ _ "enrollment_url" "course_runs" _ (by decide),
        heapGet_applyMarketingUrl_ne_key _ _ _ _ "course_runs" (by decide),
        heapGet_heapSet_ne_key _ _ "content_last_modified" "course_runs" _ (by decide)]
    simp only [hcopyread]
    have hnotref : ∀ r : Nat,
        PyVal.ref r ∈ runsListOf (heapGet h inst.json_metadata "course_runs") →
        h.length ≠ r := by
      intro r hr
      have := hwf r (by simpa [courseRunsOf] using hr)
      omega
    rw [heapGet_setRunEnrollmentUrls_notRef _ _ _ _ _ _ hnotref]
    rw [heapGet_heapSet_ne_key _ _ "active" "content_last_modified" _ (by decide),
        heapGet_heapSet_ne_key _ _ "xapi_activity_id" "content_last_modified" _ (by decide),
        heapGet_heapSet_ne_key _ _ "enrollment_url" "content_last_modified" _ (by decide),
        heapGet_applyMarketingUrl_ne_key _ _ _ _ "content_last_modified" (by decide)]
    exact heapGet_heapSet_self _ _ _ _ hlt1
  · by_cases hCR : inst.content_type = COURSE_RUN
    · have hcond : (inst.content_type == COURSE || inst.content_type == COURSE_RUN) = true := by
        simp [hCR]
      have hcondC : ¬((inst.content_type == COURSE) = true) := by
        simp [beq_iff_eq, hC]
      simp only [to_representation, heapCopy, get_most_recent_modified_time]
      rw [if_pos hcond, if_neg hcondC]
      dsimp only
      rw [heapGet_heapSet_ne_key _ _ "xapi_activity_id" "content_last_modified" _ (by decide),
          heapGet_heapSet_ne_key _ _ "enrollment_url" "content_last_modified" _ (by decide),
          heapGet_applyMarketingUrl_ne_key _ _ _ _ "content_last_modified" (by decide)]
      exact heapGet_heapSet_self _ _ _ _ hlt1
    · by_cases hP : inst.content_type = PROGRAM
      · have hcond : ¬((inst.content_type == COURSE || inst.content_type == COURSE_RUN) = true) := by
          simp [beq_iff_eq, hC, hCR]
        have hcondP : (inst.content_type == PROGRAM) = true := by simp [hP]
        simp only [to_representation, heapCopy, get_most_recent_modified_time]
        rw [if_neg hcond, if_pos hcondP]
        dsimp only
        rw [heapGet_heapSet_ne_key _ _ "enrollment_url" "content_last_modified" _ (by decide),
            heapGet_applyMarketingUrl_ne_key _ _ _ _ "content_last_modified" (by decide)]
        exact heapGet_heapSet_self _ _ _ _ hlt1
      · have hcond : ¬((inst.content_type == COURSE || inst.content_type == COURSE_RUN) = true) := by
          simp [beq_iff_eq, hC, hCR]
        have hcondP : ¬((inst.content_type == PROGRAM) = true) := by
          simp [beq_iff_eq, hP]
        simp only [to_representation, heapCopy, get_most_recent_modified_time]
        rw [if_neg hcond, if_neg hcondP]
        dsimp only
        rw [heapGet_applyMarketingUrl_ne_key _ _ _ _ "content_last_modified" (by decide)]
        exact heapGet_heapSet_self _ _ _ _ hlt1

/-- C8 witness: projecting a concrete program record whose catalog modified
time 9 is the latest of the three timestamps yields
`content_last_modified = 9`. -/
theorem claim_C8_witness :
    (∀ r : Nat, PyVal.ref r ∈ courseRunsOf hC8 instC8.json_metadata → r < hC8.length) ∧
    heapGet (to_representation 0 hC8 instC8 catC8).1 (to_representation 0 hC8 instC8 catC8).2
        "content_last_modified" = some (PyVal.time 9) :=
  ⟨fun r hr => absurd hr (List.not_mem_nil _),
    claim_C8_content_last_modified 0 hC8 instC8 catC8
      (fun r hr => absurd hr (List.not_mem_nil _))⟩

/-- C7: for a projected course record the derived `active` flag equals the
boolean OR, over the nested course-run entries of the stored record, of
"currently enrollable (not yet ended)"; an empty run list yields `false`. -/
theorem claim_C7_active_flag (now : Int) (h : Heap) (inst : ContentMetadataInstance)
    (cat : EnterpriseCatalogObj)
    (hC : inst.content_type = COURSE)
    (hwf : ∀ r : Nat, PyVal.ref r ∈ courseRunsOf h inst.json_metadata → r < h.length) :
    heapGet (to_representation now h inst cat).1 (to_representation now h inst cat).2
        "active" =
      some (PyVal.bool (is_any_course_run_active now h (courseRunsOf h inst.json_metadata))) ∧
    (courseRunsOf h inst.json_metadata = [] →
      heapGet (to_representation now h inst cat).1 (to_representation now h inst cat).2
          "active" = some (PyVal.bool false)) := by
  have hcopyread : ∀ K : String,
      heapGet (h ++ [heapDict h inst.json_metadata]) h.length K =
        heapGet h inst.json_metadata K := by
    intro K
    unfold heapGet
    rw [heapDict_append_self]
  have hnotref : ∀ r : Nat,
      PyVal.ref r ∈ runsListOf (heapGet h inst.json_metadata "course_runs") →
      h.length ≠ r := by
    intro r hr
    have := hwf r (by simpa [courseRunsOf] using hr)
    omega
  have hcond : (inst.content_type == COURSE || inst.content_type == COURSE_RUN) = true := by
    simp [hC]
  have hcondC : (inst.content_type == COURSE) = true := by simp [hC]
  have hmain : heapGet (to_representation now h inst cat).1
      (to_representation now h inst cat).2 "active" =
      some (PyVal.bool (is_any_course_run_active now h
        (courseRunsOf h inst.json_metadata))) := by
    simp only [to_representation, heapCopy, courseRunsOf]
    rw [if_pos hcond, if_pos hcondC]
    dsimp only
    rw [heapGet_heapSet_ne_key _ _ "xapi_activity_id" "course_runs" _ (by decide),
        heapGet_heapSet_ne_key _ _ "enrollment_url" "course_runs" _ (by decide),
        heapGet_applyMarketingUrl_ne_key _ _ _ _ "course_runs" (by decide),
        heapGet_heapSet_ne_key _ _ "content_last_modified" "course_runs" _ (by decide)]
    simp only [hcopyread]
    rw [heapGet_setRunEnrollmentUrls_notRef _ _ _ _ _ _ hnotref]
    rw [heapGet_heapSet_self _ _ _ _
      (by simp [length_heapSet, length_applyMarketingUrl])]
    refine congrArg (fun b => some (PyVal.bool b)) ?_
    apply is_any_course_run_active_congr
    intro r hr
    have hrlt : r < h.length := hwf r (by simpa [courseRunsOf] using hr)
    have hner : r ≠ h.length := by omega
    rw [heapDict_heapSet_ne _ _ _ _ _ hner, heapDict_heapSet_ne _ _ _ _ _ hner,
        heapDict_applyMarketingUrl_ne_addr _ _ _ _ _ hner,
        heapDict_heapSet_ne _ _ _ _ _ hner, heapDict_append_lt _ _ _ hrlt]
  refine ⟨hmain, fun hempty => ?_⟩
  rw [hmain, hempty]
  rfl

/-- C7 witness: a course with one run ended in the past and one run with no
end date projects `active = true` (the OR over its two nested runs). -/
theorem claim_C7_witness :
    instC7.content_type = COURSE ∧
    (∀ r : Nat, PyVal.ref r ∈ courseRunsOf hC7 instC7.json_metadata → r < hC7.length) ∧
    heapGet (to_representation 50 hC7 instC7 catC7).1
        (to_representation 50 hC7 instC7 catC7).2 "active" =
      some (PyVal.bool true) := by
  have hwf : ∀ r : Nat, PyVal.ref r ∈ courseRunsOf hC7 instC7.json_metadata →
      r < hC7.length := by
    intro r hr
    have hr2 : PyVal.ref r ∈ [PyVal.ref 0, PyVal.ref 1] := hr
    simp only [List.mem_cons, List.not_mem_nil, or_false, PyVal.ref.injEq] at hr2
    rcases hr2 with h1 | h1 <;> · subst h1; decide
  exact ⟨rfl, hwf, (claim_C7_active_flag 50 hC7 instC7 catC7 rfl hwf).1⟩

/-- C6 counterexample: projecting a concrete course-run record builds its
enrollment URL with the **course** resource type, not the record's own
course-run resource type as the claim states â the serializer passes
`content_resource=COURSE` for both courses and course runs. -/
theorem claim_C6_counterexample :
    instC6.content_type = COURSE_RUN ∧
    heapGetStr (to_representation 0 hC6 instC6 catC6).1
        (to_representation 0 hC6 instC6 catC6).2 "enrollment_url" =
      get_content_enrollment_url catC6 COURSE (some "cr-9") (some "c-9") ∧
    heapGetStr (to_representation 0 hC6 instC6 catC6).1
        (to_representation 0 hC6 instC6 catC6).2 "enrollment_url" ≠
      get_content_enrollment_url catC6 COURSE_RUN (some "cr-9") (some "c-9") :=
  ⟨rfl, rfl, by decide⟩

/-- C6 (amended): for a projected course or course-run record, the enrollment
URL is built from the owning catalog, the **course** resource type (for both
content types), the content key and the parent content key read from the raw
metadata, while the xapi activity identifier is built from the catalog, the
record's own content_type and the content key. -/
theorem claim_C6_amended_enrollment_urls (now : Int) (h : Heap)
    (inst : ContentMetadataInstance) (cat : EnterpriseCatalogObj)
    (htype : inst.content_type = COURSE ∨ inst.content_type = COURSE_RUN)
    (hwf : ∀ r : Nat, PyVal.ref r ∈ courseRunsOf h inst.json_metadata → r < h.length) :
    heapGet (to_representation now h inst cat).1 (to_representation now h inst cat).2
        "enrollment_url" =
      some (pyOfOptStr (get_content_enrollment_url cat COURSE
        (heapGetStr h inst.json_metadata "key")
        (get_parent_content_key h inst.json_metadata))) ∧
    heapGet (to_representation now h inst cat).1 (to_representation now h inst cat).2
        "xapi_activity_id" =
      some (PyVal.str (get_xapi_activity_id cat inst.content_type
        (heapGetStr h inst.json_metadata "key"))) := by
  have hcopyread : ∀ K : String,
      heapGet (h ++ [heapDict h inst.json_metadata]) h.length K =
        heapGet h inst.json_metadata K := by
    intro K
    unfold heapGet
    rw [heapDict_append_self]
  rcases htype with hC | hCR
  · have hcond : (inst.content_type == COURSE || inst.content_type == COURSE_RUN) = true := by
      simp [hC]
    have hcondC : (inst.content_type == COURSE) = true := by simp [hC]
    have hnotref : ∀ r : Nat,
        PyVal.ref r ∈ runsListOf (heapGet h inst.json_metadata "course_runs") →
        h.length ≠ r := by
      intro r hr
      have := hwf r (by simpa [courseRunsOf] using hr)
      omega
    constructor
    · simp only [to_representation, heapCopy, heapGetStr, get_parent_content_key, hcopyread]
      rw [if_pos hcond, if_pos hcondC]
      dsimp only
      rw [heapGet_heapSet_ne_key _ _ "xapi_activity_id" "course_runs" _ (by decide),
          heapGet_heapSet_ne_key _ _ "enrollment_url" "course_runs" _ (by decide),
          heapGet_applyMarketingUrl_ne_key _ _ _ _ "course_runs" (by decide),
          heapGet_heapSet_ne_key _ _ "content_last_modified" "course_runs" _ (by decide)]
      simp only [hcopyread]
      rw [heapGet_setRunEnrollmentUrls_notRef _ _ _ _ _ _ hnotref]
      rw [heapGet_heapSet_ne_key _ _ "active" "enrollment_url" _ (by decide),
          heapGet_heapSet_ne_key _ _ "xapi_activity_id" "enrollment_url" _ (by decide)]
      exact heapGet_heapSet_self _ _ _ _
        (by simp [length_heapSet, length_applyMarketingUrl])
    · simp only [to_representation, heapCopy, heapGetStr, get_parent_content_key, hcopyread]
      rw [if_pos hcond, if_pos hcondC]
      dsimp only
      rw [heapGet_heapSet_ne_key _ _ "xapi_activity_id" "course_runs" _ (by decide),
          heapGet_heapSet_ne_key _ _ "enrollment_url" "course_runs" _ (by decide),
          heapGet_applyMarketingUrl_ne_key _ _ _ _ "course_runs" (by decide),
          heapGet_heapSet_ne_key _ _ "content_last_modified" "course_runs" _ (by decide)]
      simp only [hcopyread]
      rw [heapGet_setRunEnrollmentUrls_notRef _ _ _ _ _ _ hnotref]
      rw [heapGet_heapSet_ne_key _ _ "active" "xapi_activity_id" _ (by decide)]
      exact heapGet_heapSet_self _ _ _ _
        (by simp [length_heapSet, length_applyMarketingUrl])
  · have hcond : (inst.content_type == COURSE || inst.content_type == COURSE_RUN) = true := by
      simp [hCR]
    have hcondC : ¬((inst.content_type == COURSE) = true) := by
      simp only [beq_iff_eq, hCR]
      decide
    constructor
    · simp only [to_representation, heapCopy, heapGetStr, get_parent_content_key, hcopyread]
      rw [if_pos hcond, if_neg hcondC]
      dsimp only
      rw [heapGet_heapSet_ne_key _ _ "xapi_activity_id" "enrollment_url" _ (by decide)]
      exact heapGet_heapSet_self _ _ _ _
        (by simp [length_heapSet, length_applyMarketingUrl])
    · simp only [to_representation, heapCopy, heapGetStr, get_parent_content_key, hcopyread]
      rw [if_pos hcond, if_neg hcondC]
      dsimp only
      exact heapGet_heapSet_self _ _ _ _
        (by simp [length_heapSet, length_applyMarketingUrl])

/-- C6 witness: the amended behaviour on the concrete course-run record. -/
theorem claim_C6_witness :
    (instC6.content_type = COURSE ∨ instC6.content_type = COURSE_RUN) ∧
    (∀ r : Nat, PyVal.ref r ∈ courseRunsOf hC6 instC6.json_metadata → r < hC6.length) ∧
    heapGet (to_representation 0 hC6 instC6 catC6).1
        (to_representation 0 hC6 instC6 catC6).2 "enrollment_url" =
      some (pyOfOptStr (get_content_enrollment_url catC6 COURSE
        (heapGetStr hC6 instC6.json_metadata "key")
        (get_parent_content_key hC6 instC6.json_metadata))) :=
  ⟨Or.inr rfl, fun r hr => absurd hr (List.not_mem_nil _),
    (claim_C6_amended_enrollment_urls 0 hC6 instC6 catC6 (Or.inr rfl)
      (fun r hr => absurd hr (List.not_mem_nil _))).1⟩

/-- C2: the projector is **not** free of side effects on the stored record â
`json_metadata.copy()` is a shallow copy, so the per-run enrollment-URL
assignments mutate the nested course-run dictionaries the stored record still
references.  On a concrete course with one nested run, the run dictionary
reachable from the stored record's `course_runs` has no `enrollment_url`
before the call and carries one after it, so the stored payload is not
byte-for-byte unchanged â the spec's purity contract is the intent
(the code copies precisely to avoid mutating the record, and the serializer
is derived from the state-change-inhibiting base class), and the shallow copy
is the slip. -/
theorem claim_C2_shallow_copy_mutates_stored_run :
    instC2.json_metadata = 1 ∧
    heapGet hC2 1 "course_runs" = some (PyVal.list [PyVal.ref 0]) ∧
    heapGet hC2 0 "enrollment_url" = Option.none ∧
    heapGetStr (to_representation 0 hC2 instC2 catC2).1 0 "enrollment_url" =
      some "enroll/cat1/course/cr1/c1" ∧
    heapDict (to_representation 0 hC2 instC2 catC2).1 1 = heapDict hC2 1 ∧
    (to_representation 0 hC2 instC2 catC2).2 = 2 :=
  ⟨rfl, rfl, rfl, rfl, rfl, rfl⟩

end EnterpriseCatalog
